import Mathlib

/-!
# Verification of the IndiaMART auto product agent core

Shallow embedding of the core of `src/web/src/app/page.tsx` (CSV parsing,
draft normalization, queue runner state machine) and of the API route code
(`buildIndiaMartPayload` and the `POST` handler) that the repository's
README carries alongside the web client.

JavaScript strings are modelled as Lean `String`s (lists of characters);
`Date.now()` timestamps and `crypto.randomUUID()` identifiers are modelled
by a single monotone counter `tick` carried in the client state, which
preserves the only properties the code relies on (freshness / uniqueness
of ids).  The asynchronous drain loop of `processNextProduct` is modelled
by splitting the function at its single `await` point into `processStart`
(everything before the fetch) and `processFinish` (the `try`/`catch`
outcome logging plus the `finally` block), with the network outcome
supplied as an explicit `DispatchOutcome` value; the `setTimeout`
rescheduling is the fuelled `drain` loop.
-/

/-! ## JavaScript string primitives -/

/-- ASCII whitespace recognised by JavaScript's `trim` and `\s`. -/
def isJsSpace (c : Char) : Bool :=
  c == ' ' || c == '\t' || c == '\n' || c == '\r' || c == '\x0b' || c == '\x0c'

/-- JavaScript `String.prototype.trim` (ASCII whitespace). -/
def jsTrim (s : String) : String :=
  String.mk (((s.data.dropWhile isJsSpace).reverse.dropWhile isJsSpace).reverse)

/-- JavaScript `.replace(/\s+/g, "")`: remove every whitespace character. -/
def stripJsSpaces (s : String) : String :=
  String.mk (s.data.filter (fun c => !isJsSpace c))

/-- Split a character list at every occurrence of `sep` (JavaScript
`String.prototype.split` with a single-character separator). -/
def splitOnCharAux (sep : Char) : List Char → String → List String
  | [], current => [current]
  | c :: rest, current =>
    if c == sep then current :: splitOnCharAux sep rest ""
    else splitOnCharAux sep rest (current.push c)

/-- JavaScript `s.split(sep)` for a one-character separator. -/
def splitOnChar (sep : Char) (s : String) : List String :=
  splitOnCharAux sep s.data ""

/-- JavaScript `String.prototype.toLowerCase` (ASCII range). -/
def jsToLowerCase (s : String) : String :=
  String.mk (s.data.map Char.toLower)

/-- Drop one trailing carriage return; composed with a split on `'\n'` this
models splitting on the regex `/\r?\n/`. -/
def dropTrailingCR (s : String) : String :=
  if s.data.getLast? == some '\r' then s.dropRight 1 else s

/-- JavaScript `.replace(/""/g, '"')`: left-to-right, non-overlapping. -/
def replaceDoubledQuotes : List Char → List Char
  | '"' :: '"' :: rest => '"' :: replaceDoubledQuotes rest
  | c :: rest => c :: replaceDoubledQuotes rest
  | [] => []

/-! ## CSV cell primitives (`page.tsx` lines 53-90) -/

/-- Character loop of `splitCsvLine`: `current` is the accumulator string,
the `Bool` is the `insideQuotes` flag.  On `"` inside quotes followed by a
second `"`, one literal quote is appended and both are consumed; otherwise
`"` toggles the flag.  A `,` outside quotes ends the current field.  The
final field is always pushed. -/
def splitCsvLineAux : List Char → Bool → String → List String
  | [], _, current => [current]
  | c :: rest, insideQuotes, current =>
    if c == '"' then
      if insideQuotes then
        match rest with
        | '"' :: rest2 => splitCsvLineAux rest2 true (current.push '"')
        | r => splitCsvLineAux r false current
      else splitCsvLineAux rest true current
    else if c == ',' && !insideQuotes then
      current :: splitCsvLineAux rest insideQuotes ""
    else
      splitCsvLineAux rest insideQuotes (current.push c)

/-- `splitCsvLine` from `page.tsx`. -/
def splitCsvLine (line : String) : List String :=
  splitCsvLineAux line.data false ""

/-- `cleanCell` from `page.tsx`: trim, then if the trimmed value starts and
ends with a double quote, strip the outer quotes (`slice(1, -1)`) and decode
doubled quotes. -/
def cleanCell (value : String) : String :=
  let trimmed := jsTrim value
  if trimmed.data.head? == some '"' && trimmed.data.getLast? == some '"' then
    String.mk (replaceDoubledQuotes ((trimmed.data.drop 1).dropLast))
  else trimmed

/-- The per-row cell pipeline of `parseCsvFile` (`page.tsx` line 427):
`splitCsvLine(rowLine).map(cleanCell)`. -/
def rowCells (rowLine : String) : List String :=
  (splitCsvLine rowLine).map cleanCell

/-! ## Shared data model -/

/-- `type AgentMode = "simulate" | "live"`, declared identically in
`page.tsx` and in the API route. -/
inductive AgentMode
  | simulate
  | live
deriving DecidableEq, Repr

namespace Page

/-- `AgentSettings` from `page.tsx`. -/
structure AgentSettings where
  apiKey : String
  sellerId : String
  baseUrl : String
  mode : AgentMode
  autoStart : Bool
deriving DecidableEq, Repr

/-- `ProductDraft` from `page.tsx`: flat record of raw string fields. -/
structure ProductDraft where
  title : String
  category : String
  price : String
  currency : String
  unit : String
  stock : String
  minOrderQty : String
  keywords : String
  imageUrls : String
  shortDescription : String
  description : String
  features : String
  packaging : String
  leadTime : String
deriving DecidableEq, Repr

/-- `ProductPayload` from `page.tsx`: a queued item. -/
structure ProductPayload where
  id : Nat
  createdAt : Nat
  payload : ProductDraft
deriving DecidableEq, Repr

/-- `LogLevel` from `page.tsx`. -/
inductive LogLevel
  | info
  | error
  | success
deriving DecidableEq, Repr

/-- `LogEntry` from `page.tsx`. -/
structure LogEntry where
  id : Nat
  level : LogLevel
  headline : String
  details : Option String
  timestamp : Nat
deriving DecidableEq, Repr

/-- `initialDraft` from `page.tsx`. -/
def initialDraft : ProductDraft :=
  { title := ""
    category := ""
    price := ""
    currency := "INR"
    unit := "Unit"
    stock := ""
    minOrderQty := ""
    keywords := ""
    imageUrls := ""
    shortDescription := ""
    description := ""
    features := ""
    packaging := ""
    leadTime := "" }

/-- `defaultSettings` from `page.tsx`. -/
def defaultSettings : AgentSettings :=
  { apiKey := ""
    sellerId := ""
    baseUrl := "https://sellerapi.indiamart.com/catalog/v1/product/add"
    mode := .simulate
    autoStart := true }

end Page

/-- `NormalizedProduct`: the result of `normalizeProduct` in `page.tsx`,
a `ProductDraft` with `features`, `imageUrls` and `keywords` exploded into
lists via the object spread `{...product, features, imageUrls, keywords}`. -/
structure NormalizedProduct where
  title : String
  category : String
  price : String
  currency : String
  unit : String
  stock : String
  minOrderQty : String
  keywords : List String
  imageUrls : List String
  shortDescription : String
  description : String
  features : List String
  packaging : String
  leadTime : String
deriving DecidableEq, Repr

/-- `normalizeProduct` from `page.tsx`: `features` and `imageUrls` split on
newline, `keywords` on comma; each candidate trimmed; empties discarded. -/
def normalizeProduct (product : Page.ProductDraft) : NormalizedProduct :=
  { title := product.title
    category := product.category
    price := product.price
    currency := product.currency
    unit := product.unit
    stock := product.stock
    minOrderQty := product.minOrderQty
    keywords := ((splitOnChar ',' product.keywords).map jsTrim).filter (· != "")
    imageUrls := ((splitOnChar '\n' product.imageUrls).map jsTrim).filter (· != "")
    shortDescription := product.shortDescription
    description := product.description
    features := ((splitOnChar '\n' product.features).map jsTrim).filter (· != "")
    packaging := product.packaging
    leadTime := product.leadTime }

/-! ## API route (`buildIndiaMartPayload` and `POST`) -/

namespace Api

/-- `AgentSettings` from the API route: every field optional. -/
structure AgentSettings where
  apiKey : Option String
  sellerId : Option String
  baseUrl : Option String
  mode : Option AgentMode
deriving DecidableEq, Repr

/-- `ProductPayload` from the API route: `title` required, the remaining
fields optional; list-valued fields arrive already normalized. -/
structure ProductPayload where
  title : String
  category : Option String
  price : Option String
  currency : Option String
  unit : Option String
  stock : Option String
  minOrderQty : Option String
  keywords : Option (List String)
  imageUrls : Option (List String)
  shortDescription : Option String
  description : Option String
  features : Option (List String)
  packaging : Option String
  leadTime : Option String
deriving DecidableEq, Repr

/-- `RequestBody` from the API route. -/
structure RequestBody where
  settings : Option AgentSettings
  product : Option ProductPayload
deriving DecidableEq, Repr

/-- The fixed-shape wire payload built by `buildIndiaMartPayload`. -/
structure IndiaMartPayload where
  PRODUCT_NAME : String
  SELLER_ID : String
  CURRENCY_TYPE : String
  YOUR_PRICE : String
  UNIT : String
  MIN_ORDER_QUANTITY : String
  PACKAGE_DETAILS : String
  SUPPLY_ABILITY : String
  DELIVERY_TIME : String
  SHORT_DESC : String
  LONG_DESC : String
  KEY_FEATURES : String
  KEYWORDS : String
  IMAGE1 : String
  IMAGE2 : String
  IMAGE3 : String
  CATEGORY : String
deriving DecidableEq, Repr

/-- `MINIMUM_FIELDS` from the API route. -/
def MINIMUM_FIELDS : List String := ["title", "description", "shortDescription"]

/-- JavaScript emptiness test `value === undefined || value === null ||
value === ""` (also the falsiness test `!value` for an optional string). -/
def isBlank : Option String → Bool
  | none => true
  | some s => s == ""

/-- Dynamic field access `product[field]` for the fields in
`MINIMUM_FIELDS` (`title` is a required string in the route's type). -/
def fieldValue (product : ProductPayload) (field : String) : Option String :=
  if field = "title" then some product.title
  else if field = "description" then product.description
  else if field = "shortDescription" then product.shortDescription
  else none

/-- `MINIMUM_FIELDS.filter(...)` from the `POST` handler. -/
def missingFields (product : ProductPayload) : List String :=
  MINIMUM_FIELDS.filter (fun field => isBlank (fieldValue product field))

/-- `buildIndiaMartPayload` from the API route. -/
def buildIndiaMartPayload (product : ProductPayload) (settings : AgentSettings) :
    IndiaMartPayload :=
  let featuresText :=
    match product.features with
    | none => ""
    | some fs => String.intercalate "|" fs
  { PRODUCT_NAME := product.title
    SELLER_ID := settings.sellerId.getD ""
    CURRENCY_TYPE := product.currency.getD "INR"
    YOUR_PRICE := product.price.getD ""
    UNIT := product.unit.getD ""
    MIN_ORDER_QUANTITY := product.minOrderQty.getD ""
    PACKAGE_DETAILS := product.packaging.getD ""
    SUPPLY_ABILITY := product.stock.getD ""
    DELIVERY_TIME := product.leadTime.getD ""
    SHORT_DESC := product.shortDescription.getD ""
    LONG_DESC := product.description.getD ""
    KEY_FEATURES := featuresText
    KEYWORDS :=
      match product.keywords with
      | none => ""
      | some ks => String.intercalate "," ks
    IMAGE1 := (product.imageUrls.getD []).getD 0 ""
    IMAGE2 := (product.imageUrls.getD []).getD 1 ""
    IMAGE3 := (product.imageUrls.getD []).getD 2 ""
    CATEGORY := product.category.getD "" }

/-- The `normalizedSettings` computed inside `POST`: each credential is
optional-chained through `trim()`, and `mode` defaults to `"simulate"`. -/
def normalizeSettings (settingsOpt : Option AgentSettings) : AgentSettings :=
  { apiKey := (settingsOpt.bind (fun st => st.apiKey)).map jsTrim
    sellerId := (settingsOpt.bind (fun st => st.sellerId)).map jsTrim
    baseUrl := (settingsOpt.bind (fun st => st.baseUrl)).map jsTrim
    mode := some ((settingsOpt.bind (fun st => st.mode)).getD .simulate) }

/-- The default endpoint used when `baseUrl` is absent or empty. -/
def defaultIndiaMartUrl : String :=
  "https://sellerapi.indiamart.com/catalog/v1/product/add"

/-- Result of the `POST` handler, modelled up to the network boundary:
`errorJson status error` is a JSON error response with the given HTTP
status; `simulatedJson payload` is the 200 response of simulate mode (no
network call is performed); `liveRequest endpoint authtoken payload` marks
that the handler reaches the outbound `fetch` to the remote catalogue API
with exactly these request parameters. -/
inductive PostResult
  | errorJson (status : Nat) (error : String)
  | simulatedJson (payload : IndiaMartPayload)
  | liveRequest (endpoint : String) (authtoken : String) (payload : IndiaMartPayload)
deriving DecidableEq, Repr

/-- The `POST` handler from the API route, after JSON body parsing, up to
the outbound network call. -/
def POST (body : RequestBody) : PostResult :=
  match body.product with
  | none => .errorJson 400 "Product payload not provided."
  | some product =>
    let missing := missingFields product
    if missing ≠ [] then
      .errorJson 400 ("Missing required product fields: " ++ String.intercalate ", " missing)
    else
      let normalizedSettings := normalizeSettings body.settings
      let preparedPayload := buildIndiaMartPayload product normalizedSettings
      if normalizedSettings.mode = some AgentMode.simulate then
        .simulatedJson preparedPayload
      else if isBlank normalizedSettings.apiKey then
        .errorJson 400 "API key is required in live mode."
      else if isBlank normalizedSettings.sellerId then
        .errorJson 400 "Seller ID is required in live mode."
      else
        let endpoint :=
          match normalizedSettings.baseUrl with
          | none => defaultIndiaMartUrl
          | some u => if u = "" then defaultIndiaMartUrl else u
        .liveRequest endpoint (normalizedSettings.apiKey.getD "") preparedPayload

end Api

/-! ## Client queue runner state machine -/

/-- The mutable client state of the `Home` component that the queue runner
touches: the queue, the `processing` flag, the `activeProductId` marker,
the activity log, and the current draft.  `tick` models the id/timestamp
sources (`crypto.randomUUID()` / `Date.now()`) as one monotone counter. -/
structure AgentState where
  queue : List Page.ProductPayload
  processing : Bool
  activeProductId : Option Nat
  logs : List Page.LogEntry
  draft : Page.ProductDraft
  tick : Nat
deriving DecidableEq, Repr

/-- The initial component state. -/
def initialState : AgentState :=
  { queue := []
    processing := false
    activeProductId := none
    logs := []
    draft := Page.initialDraft
    tick := 0 }

/-- `appendLog` from `page.tsx`: append one entry with a fresh id and the
current timestamp. -/
def appendLog (s : AgentState) (level : Page.LogLevel) (headline : String)
    (details : Option String) : AgentState :=
  { s with
    logs := s.logs ++ [{ id := s.tick, level := level, headline := headline,
                         details := details, timestamp := s.tick }]
    tick := s.tick + 1 }

/-- `product.title || fallback` (JavaScript falsiness of the empty string). -/
def displayTitle (product : Page.ProductDraft) (fallback : String) : String :=
  if product.title = "" then fallback else product.title

/-- `addToQueue` from `page.tsx`: append a fresh `ProductPayload` to the
queue tail, log a "queued" info event, and if `autoStart` is set and the
runner is idle, start it. -/
def addToQueue (settings : Page.AgentSettings) (s : AgentState)
    (product : Page.ProductDraft) : AgentState :=
  let payload : Page.ProductPayload := { id := s.tick, createdAt := s.tick, payload := product }
  let s1 := { s with queue := s.queue ++ [payload], tick := s.tick + 1 }
  let s2 := appendLog s1 .info ("Product queued: " ++ displayTitle product "Untitled")
      (some "Added to automation queue")
  if settings.autoStart && !s2.processing then { s2 with processing := true } else s2

/-- `handleAddDraftToQueue` from `page.tsx`: reject an empty title with an
error log (draft retained), otherwise enqueue the draft and reset it. -/
def handleAddDraftToQueue (settings : Page.AgentSettings) (s : AgentState) : AgentState :=
  if s.draft.title = "" then
    appendLog s .error "Missing product name" (some "Add a product title before queuing.")
  else
    let s1 := addToQueue settings s s.draft
    { s1 with draft := Page.initialDraft }

/-- `runAgent` from `page.tsx` (the start action). -/
def runAgent (s : AgentState) : AgentState :=
  if s.processing then s
  else if s.queue.length = 0 then
    appendLog s .info "Queue empty" (some "No products waiting in the queue.")
  else { s with processing := true }

/-- `stopAgent` from `page.tsx` (the pause action). -/
def stopAgent (s : AgentState) : AgentState :=
  appendLog { s with processing := false, activeProductId := none }
    .info "Agent paused" (some "Automation paused manually.")

/-- Outcome of one dispatch as observed by `processNextProduct`:
`ok status` is a 2xx response whose JSON carries `status`; `failed message`
is the caught exception (a non-2xx response's `error` field, or a
transport failure message). -/
inductive DispatchOutcome
  | ok (status : String)
  | failed (message : String)
deriving DecidableEq, Repr

/-- First half of `processNextProduct`, up to the `await fetch`: the two
guard returns, the queue-empty completion branch, and otherwise marking
the head item active and logging the "Processing" info event.  Returns the
item now being dispatched, if any. -/
def processStart (settings : Page.AgentSettings) (s : AgentState) :
    AgentState × Option Page.ProductPayload :=
  if !s.processing then (s, none)
  else if s.activeProductId.isSome then (s, none)
  else
    match s.queue with
    | [] =>
      (appendLog { s with processing := false } .success "Queue complete"
        (some "All products processed successfully."), none)
    | next :: _ =>
      let s1 := { s with activeProductId := some next.id }
      (appendLog s1 .info ("Processing: " ++ displayTitle next.payload "Untitled product")
        (some ("Attempting IndiaMART sync in "
          ++ (if settings.mode = AgentMode.simulate then "simulation" else "live")
          ++ " mode.")), some next)

/-- The log entry produced by the `try`/`catch` of `processNextProduct`
for a dispatch outcome, at counter value `t`. -/
def outcomeEntry (settings : Page.AgentSettings) (next : Page.ProductPayload)
    (outcome : DispatchOutcome) (t : Nat) : Page.LogEntry :=
  match outcome with
  | .ok status =>
    { id := t, level := .success,
      headline := "Uploaded: " ++ displayTitle next.payload "Untitled product",
      details := some (if settings.mode = AgentMode.simulate then
          "Simulation completed. Ready to upload live."
        else "IndiaMART responded with status: " ++ status),
      timestamp := t }
  | .failed message =>
    { id := t, level := .error,
      headline := "Failed: " ++ displayTitle next.payload "Untitled product",
      details := some message, timestamp := t }

/-- Second half of `processNextProduct`: the `try`/`catch` logs the outcome
(one success or one error entry), then the `finally` block removes the
dispatched item from the queue by id and clears `activeProductId`. -/
def processFinish (settings : Page.AgentSettings) (s : AgentState)
    (next : Page.ProductPayload) (outcome : DispatchOutcome) : AgentState :=
  let s1 :=
    match outcome with
    | .ok status =>
      appendLog s .success ("Uploaded: " ++ displayTitle next.payload "Untitled product")
        (some (if settings.mode = AgentMode.simulate then
            "Simulation completed. Ready to upload live."
          else "IndiaMART responded with status: " ++ status))
    | .failed message =>
      appendLog s .error ("Failed: " ++ displayTitle next.payload "Untitled product")
        (some message)
  { s1 with queue := s1.queue.filter (fun item => item.id != next.id),
            activeProductId := none }

/-- The drain loop: the `setTimeout` chain of `processNextProduct`, run to
completion with explicit fuel (each scheduled continuation re-invokes
`processNextProduct` only while `processing` holds).  `outcome` resolves
each item's dispatch. -/
def drain (settings : Page.AgentSettings)
    (outcome : Page.ProductPayload → DispatchOutcome) :
    Nat → AgentState → AgentState
  | 0, s => s
  | fuel + 1, s =>
    match processStart settings s with
    | (s1, none) => s1
    | (s1, some next) =>
      let s2 := processFinish settings s1 next (outcome next)
      if s2.processing then drain settings outcome fuel s2 else s2

/-- One full scenario: enqueue every draft in order. -/
def enqueueAll (settings : Page.AgentSettings) (drafts : List Page.ProductDraft)
    (s : AgentState) : AgentState :=
  drafts.foldl (fun st d => addToQueue settings st d) s

/-- Enqueue all drafts from the initial state, press start, and drain. -/
def runAll (settings : Page.AgentSettings)
    (outcome : Page.ProductPayload → DispatchOutcome)
    (drafts : List Page.ProductDraft) : AgentState :=
  let s1 := enqueueAll settings drafts initialState
  let s2 := runAgent s1
  drain settings outcome (s2.queue.length + 1) s2

/-! ## Client CSV import (`parseCsvFile` in `page.tsx`) -/

/-- The 14 required column names, in the insertion order of the `expected`
set in `parseCsvFile`. -/
def requiredColumns : List String :=
  ["title", "category", "price", "currency", "unit", "stock", "minorderqty",
   "keywords", "imageurls", "shortdescription", "description", "features",
   "packaging", "leadtime"]

/-- Header-cell normalization: `cleanCell(column).toLowerCase().replace(/\s+/g, "")`. -/
def normalizeHeaderCell (column : String) : String :=
  stripJsSpaces (jsToLowerCase (cleanCell column))

/-- The normalized header list of a header line. -/
def headersOfLine (headerLine : String) : List String :=
  (splitCsvLine headerLine).map normalizeHeaderCell

/-- The required columns absent from a normalized header list (the
`missing` array in `parseCsvFile`, in `expected` iteration order). -/
def missingColumnsOf (headers : List String) : List String :=
  requiredColumns.filter (fun key => !headers.contains key)

/-- `getValue` from `parseCsvFile`: look the column up by normalized name
(`headers.indexOf`), yielding `""` for an absent column or a row with
fewer cells (`row[index] ?? ""`). -/
def getValue (headers row : List String) (column : String) : String :=
  match headers.findIdx? (· == column) with
  | none => ""
  | some index => row.getD index ""

/-- Build the `ProductDraft` of one data row (the body of the
`rows.forEach` in `parseCsvFile`), with the `|| "INR"` and `|| "Unit"`
defaults for `currency` and `unit`. -/
def rowToDraft (headers : List String) (rowLine : String) : Page.ProductDraft :=
  let cells := (splitCsvLine rowLine).map cleanCell
  { title := getValue headers cells "title"
    category := getValue headers cells "category"
    price := getValue headers cells "price"
    currency := let v := getValue headers cells "currency"; if v = "" then "INR" else v
    unit := let v := getValue headers cells "unit"; if v = "" then "Unit" else v
    stock := getValue headers cells "stock"
    minOrderQty := getValue headers cells "minorderqty"
    keywords := getValue headers cells "keywords"
    imageUrls := getValue headers cells "imageurls"
    shortDescription := getValue headers cells "shortdescription"
    description := getValue headers cells "description"
    features := getValue headers cells "features"
    packaging := getValue headers cells "packaging"
    leadTime := getValue headers cells "leadtime" }

/-- The line preprocessing of `parseCsvFile`:
`text.split(/\r?\n/).map(line => line.trim()).filter(line => line.length > 0)`. -/
def csvLines (text : String) : List String :=
  ((((splitOnChar '\n' text).map dropTrailingCR).map jsTrim).filter (· != ""))

/-- `parseCsvFile` after line preprocessing: header validation, then one
`addToQueue` per data row and a final "CSV imported" success event. -/
def parseCsvLinesState (settings : Page.AgentSettings) (s : AgentState) :
    List String → AgentState
  | [] => appendLog s .error "Empty CSV" (some "No header row detected.")
  | headerLine :: rows =>
    let headers := headersOfLine headerLine
    let missing := missingColumnsOf headers
    if missing ≠ [] then
      appendLog s .error "CSV headers mismatch"
        (some ("Missing columns: " ++ String.intercalate ", " missing))
    else
      let s2 := rows.foldl (fun st rowLine => addToQueue settings st (rowToDraft headers rowLine)) s
      appendLog s2 .success "CSV imported"
        (some (toString rows.length ++ " product rows processed."))

/-- `parseCsvFile` from `page.tsx` as a state transformer on the client
state. -/
def parseCsvFile (settings : Page.AgentSettings) (s : AgentState) (text : String) :
    AgentState :=
  parseCsvLinesState settings s (csvLines text)

/-! ## Client-to-route glue (the `fetch` body of `processNextProduct`) -/

/-- The settings object the client sends in the request body. -/
def toApiSettings (settings : Page.AgentSettings) : Api.AgentSettings :=
  { apiKey := some settings.apiKey
    sellerId := some settings.sellerId
    baseUrl := some settings.baseUrl
    mode := some settings.mode }

/-- The normalized product as received by the route (every optional field
present, since the client serialises the full object). -/
def toApiProduct (p : NormalizedProduct) : Api.ProductPayload :=
  { title := p.title
    category := some p.category
    price := some p.price
    currency := some p.currency
    unit := some p.unit
    stock := some p.stock
    minOrderQty := some p.minOrderQty
    keywords := some p.keywords
    imageUrls := some p.imageUrls
    shortDescription := some p.shortDescription
    description := some p.description
    features := some p.features
    packaging := some p.packaging
    leadTime := some p.leadTime }

/-- The dispatch of one queued item resolved through the modelled route:
an error response becomes the caught-and-logged failure message, a
simulate response is a success with status `"simulated"`.  The
`liveRequest` arm stands for a live call answered with a 2xx response
(whose body carries `status: "success"`); under simulate-mode settings it
is unreachable. -/
def simulateDispatch (settings : Page.AgentSettings) (item : Page.ProductPayload) :
    DispatchOutcome :=
  match Api.POST { settings := some (toApiSettings settings),
                   product := some (toApiProduct (normalizeProduct item.payload)) } with
  | .errorJson _ e => .failed e
  | .simulatedJson _ => .ok "simulated"
  | .liveRequest _ _ _ => .ok "success"

/-! ## Basic lemmas about the state operations -/

set_option maxRecDepth 16384

lemma appendLog_queue (s : AgentState) (lv : Page.LogLevel) (h : String) (d : Option String) :
    (appendLog s lv h d).queue = s.queue := rfl

lemma appendLog_processing (s : AgentState) (lv : Page.LogLevel) (h : String) (d : Option String) :
    (appendLog s lv h d).processing = s.processing := rfl

lemma appendLog_active (s : AgentState) (lv : Page.LogLevel) (h : String) (d : Option String) :
    (appendLog s lv h d).activeProductId = s.activeProductId := rfl

lemma appendLog_logs (s : AgentState) (lv : Page.LogLevel) (h : String) (d : Option String) :
    (appendLog s lv h d).logs
      = s.logs ++ [{ id := s.tick, level := lv, headline := h, details := d, timestamp := s.tick }] := rfl

/-- An entry at level `success` or `error` (the terminal outcome levels). -/
def isTerminal (e : Page.LogEntry) : Bool :=
  match e.level with
  | .success => true
  | .error => true
  | .info => false

/-- Number of log entries at level `success` or `error`. -/
def terminalCount (logs : List Page.LogEntry) : Nat :=
  (logs.filter isTerminal).length

/-- An entry at level `error`. -/
def isErrorLevel (e : Page.LogEntry) : Bool :=
  match e.level with
  | .error => true
  | _ => false

/-- Number of log entries at level `error`. -/
def errorLevelCount (logs : List Page.LogEntry) : Nat :=
  (logs.filter isErrorLevel).length

lemma terminalCount_append (l : List Page.LogEntry) (e : Page.LogEntry) :
    terminalCount (l ++ [e]) = terminalCount l + (if isTerminal e then 1 else 0) := by
  simp only [terminalCount, List.filter_append, List.length_append]
  by_cases h : isTerminal e <;> simp [h, List.filter]

lemma terminalCount_appendLog_info (s : AgentState) (h : String) (d : Option String) :
    terminalCount (appendLog s .info h d).logs = terminalCount s.logs := by
  rw [appendLog_logs, terminalCount_append]; rfl

lemma terminalCount_appendLog_success (s : AgentState) (h : String) (d : Option String) :
    terminalCount (appendLog s .success h d).logs = terminalCount s.logs + 1 := by
  rw [appendLog_logs, terminalCount_append]; rfl

lemma terminalCount_appendLog_error (s : AgentState) (h : String) (d : Option String) :
    terminalCount (appendLog s .error h d).logs = terminalCount s.logs + 1 := by
  rw [appendLog_logs, terminalCount_append]; rfl

lemma addToQueue_queue (settings : Page.AgentSettings) (s : AgentState) (p : Page.ProductDraft) :
    (addToQueue settings s p).queue
      = s.queue ++ [{ id := s.tick, createdAt := s.tick, payload := p }] := by
  simp only [addToQueue]; split <;> rfl

lemma addToQueue_active (settings : Page.AgentSettings) (s : AgentState) (p : Page.ProductDraft) :
    (addToQueue settings s p).activeProductId = s.activeProductId := by
  simp only [addToQueue]; split <;> rfl

lemma addToQueue_tick (settings : Page.AgentSettings) (s : AgentState) (p : Page.ProductDraft) :
    (addToQueue settings s p).tick = s.tick + 2 := by
  simp only [addToQueue]; split <;> rfl

lemma addToQueue_terminalCount (settings : Page.AgentSettings) (s : AgentState) (p : Page.ProductDraft) :
    terminalCount (addToQueue settings s p).logs = terminalCount s.logs := by
  simp only [addToQueue]
  split <;> simp [appendLog_logs, terminalCount_append, isTerminal]

/-! ## CSV field lemmas (claims C5 and C6) -/

/-- A character that is neither a double quote nor a comma. -/
def plainChar (c : Char) : Bool :=
  !(c == '"') && !(c == ',')

/-- A field with no double quote and no comma (an unquoted field in the
sense of the CSV contract). -/
def plainField (f : String) : Prop :=
  ∀ c ∈ f.data, plainChar c = true

instance (f : String) : Decidable (plainField f) := by
  unfold plainField; infer_instance

/-- Join fields with the comma delimiter (used to build input lines). -/
def commaJoin : List String → String
  | [] => ""
  | [f] => f
  | f :: g :: rest => f ++ "," ++ commaJoin (g :: rest)

lemma splitCsvLineAux_push (c : Char) (h1 : (c == '"') = false) (h2 : (c == ',') = false)
    (rest : List Char) (insideQuotes : Bool) (current : String) :
    splitCsvLineAux (c :: rest) insideQuotes current
      = splitCsvLineAux rest insideQuotes (current.push c) := by
  rw [splitCsvLineAux.eq_def]
  simp only []
  rw [if_neg (by simp [h1]), if_neg (by simp [h2])]

lemma splitCsvLineAux_comma (rest : List Char) (current : String) :
    splitCsvLineAux (',' :: rest) false current
      = current :: splitCsvLineAux rest false "" := by
  rw [splitCsvLineAux.eq_def]
  simp only []
  rw [if_neg (by decide), if_pos (by decide)]

lemma splitCsvLineAux_plain_prefix (cs : List Char) (h : ∀ c ∈ cs, plainChar c = true)
    (rest : List Char) (current : String) :
    splitCsvLineAux (cs ++ rest) false current
      = splitCsvLineAux rest false (String.mk (current.data ++ cs)) := by
  induction cs generalizing current with
  | nil => simp
  | cons c cs ih =>
    have hc := h c (by simp)
    simp only [plainChar, Bool.and_eq_true, Bool.not_eq_true'] at hc
    rw [List.cons_append, splitCsvLineAux_push c hc.1 hc.2,
      ih (fun d hd => h d (by simp [hd]))]
    simp [String.data_push]

lemma commaJoin_data_cons (f g : String) (rest : List String) :
    (commaJoin (f :: g :: rest)).data = f.data ++ ',' :: (commaJoin (g :: rest)).data := by
  show (f ++ "," ++ commaJoin (g :: rest)).data = _
  simp [String.data_append]

lemma splitCsvLine_commaJoin (fields : List String) (hne : fields ≠ [])
    (h : ∀ f ∈ fields, plainField f) :
    splitCsvLine (commaJoin fields) = fields := by
  induction fields with
  | nil => exact absurd rfl hne
  | cons f rest ih =>
    cases rest with
    | nil =>
      show splitCsvLineAux (commaJoin [f]).data false "" = [f]
      have hf : commaJoin [f] = f := rfl
      rw [hf, show f.data = f.data ++ [] by simp,
        splitCsvLineAux_plain_prefix f.data (h f (by simp)) [] ""]
      simp [splitCsvLineAux]
    | cons g rest2 =>
      show splitCsvLineAux (commaJoin (f :: g :: rest2)).data false "" = f :: g :: rest2
      rw [commaJoin_data_cons,
        splitCsvLineAux_plain_prefix f.data (h f (by simp)) (',' :: (commaJoin (g :: rest2)).data) "",
        show String.mk (("" : String).data ++ f.data) = f by rfl,
        splitCsvLineAux_comma]
      exact congrArg (f :: ·) (ih (by simp) (fun d hd => h d (by simp [hd])))

lemma commaJoin_count_comma (fields : List String) (hne : fields ≠ [])
    (h : ∀ f ∈ fields, plainField f) :
    (commaJoin fields).data.count ',' = fields.length - 1 := by
  induction fields with
  | nil => exact absurd rfl hne
  | cons f rest ih =>
    have hfz : f.data.count ',' = 0 := by
      rw [List.count_eq_zero]
      intro hmem
      have := h f (by simp) ',' hmem
      simp [plainChar] at this
    cases rest with
    | nil => simpa [commaJoin] using hfz
    | cons g rest2 =>
      rw [commaJoin_data_cons, List.count_append, List.count_cons, hfz]
      have := ih (by simp) (fun d hd => h d (by simp [hd]))
      simp only [this]
      simp [List.length_cons]

lemma jsTrim_subset (f : String) : ∀ c ∈ (jsTrim f).data, c ∈ f.data := by
  intro c hc
  simp only [jsTrim, List.mem_reverse] at hc
  have h1 : c ∈ (f.data.dropWhile isJsSpace).reverse :=
    (List.dropWhile_sublist (l := (f.data.dropWhile isJsSpace).reverse) isJsSpace).subset hc
  rw [List.mem_reverse] at h1
  exact (List.dropWhile_sublist (l := f.data) isJsSpace).subset h1

lemma cleanCell_plain (f : String) (h : plainField f) : cleanCell f = jsTrim f := by
  have hhead : ((jsTrim f).data.head? == some '"') = false := by
    cases hd : (jsTrim f).data with
    | nil => simp [hd]
    | cons c l =>
      have hc : c ∈ f.data := jsTrim_subset f c (by simp [hd])
      have hp := h c hc
      simp only [plainChar, Bool.and_eq_true, Bool.not_eq_true'] at hp
      simp [hd, hp.1]
  simp only [cleanCell, hhead, Bool.false_and, Bool.false_eq_true, if_false]

/-- C5: inside a quoted field, a doubled quote character decodes to exactly
one literal quote appended to the current field (the quote-pair rule of the
`splitCsvLine` loop), and on the claim's two concrete lines the row-cell
pipeline produces exactly the claimed fields. -/
theorem doubled_quote_decodes_to_single_quote :
    (∀ (rest : List Char) (current : String),
      splitCsvLineAux ('"' :: '"' :: rest) true current
        = splitCsvLineAux rest true (current.push '"')) ∧
    rowCells "Wire,\"16 AWG, copper\",10" = ["Wire", "16 AWG, copper", "10"] ∧
    rowCells "\"He said \"\"hi\"\"\",2" = ["He said \"hi\"", "2"] := by
  refine ⟨fun rest current => ?_, by decide, by decide⟩
  rw [splitCsvLineAux.eq_def]
  simp

/-- C6 counterexample: on the line `a , b` the program's cell pipeline
(`splitCsvLine` then `cleanCell`, as applied to every CSV row) yields
`["a", "b"]`, not the verbatim fields `["a ", " b"]` — surrounding
whitespace of unquoted fields is not preserved. -/
theorem cells_not_verbatim_whitespace_trimmed :
    splitCsvLine "a , b" = ["a ", " b"] ∧
    rowCells "a , b" = ["a", "b"] ∧
    rowCells "a , b" ≠ ["a ", " b"] := by
  exact ⟨by decide, by decide, by decide⟩

/-- C6 (amended): the line splitter `splitCsvLine` emits every unquoted
field verbatim, character for character, and always emits a trailing field
(a line built from `k+1` plain fields has `k` commas, all outside quotes,
and splits back into exactly those `k+1` fields); but each cell is then
passed through `cleanCell`, which trims surrounding whitespace, so
the import pipeline yields the trimmed fields instead. -/
theorem split_verbatim_then_trimmed (fields : List String) (hne : fields ≠ [])
    (h : ∀ f ∈ fields, plainField f) :
    splitCsvLine (commaJoin fields) = fields ∧
    rowCells (commaJoin fields) = fields.map jsTrim ∧
    (commaJoin fields).data.count ',' = fields.length - 1 := by
  refine ⟨splitCsvLine_commaJoin fields hne h, ?_, commaJoin_count_comma fields hne h⟩
  rw [rowCells, splitCsvLine_commaJoin fields hne h]
  exact List.map_congr_left (fun f hf => cleanCell_plain f (h f hf))

/-- Witness for C6 (amended) at the concrete fields `["a ", " b", "c"]`. -/
theorem split_verbatim_then_trimmed_witness :
    ((["a ", " b", "c"] : List String) ≠ [] ∧
      ∀ f ∈ (["a ", " b", "c"] : List String), plainField f) ∧
    splitCsvLine (commaJoin ["a ", " b", "c"]) = ["a ", " b", "c"] ∧
    rowCells (commaJoin ["a ", " b", "c"]) = ["a", "b", "c"] ∧
    (commaJoin ["a ", " b", "c"]).data.count ',' = 2 := by
  have h := split_verbatim_then_trimmed ["a ", " b", "c"] (by decide) (by decide)
  refine ⟨⟨by decide, by decide⟩, h.1, ?_, h.2.2⟩
  rw [h.2.1]; decide

/-! ## API route lemmas (claims C8, C9, C10) -/

lemma missingFields_nil (p : Api.ProductPayload) (h1 : p.title ≠ "")
    (h2 : Api.isBlank p.description = false) (h3 : Api.isBlank p.shortDescription = false) :
    Api.missingFields p = [] := by
  simp only [Api.missingFields, Api.MINIMUM_FIELDS]
  rw [List.filter_eq_nil_iff]
  intro a ha
  simp only [List.mem_cons, List.not_mem_nil, or_false] at ha
  rcases ha with rfl | rfl | rfl
  · simp [Api.fieldValue, Api.isBlank, h1]
  · simp [Api.fieldValue, h2]
  · simp [Api.fieldValue, h3]

lemma POST_valid_eq (settingsOpt : Option Api.AgentSettings) (product : Api.ProductPayload)
    (hm : Api.missingFields product = []) :
    Api.POST { settings := settingsOpt, product := some product }
      = (if (Api.normalizeSettings settingsOpt).mode = some AgentMode.simulate then
           Api.PostResult.simulatedJson
             (Api.buildIndiaMartPayload product (Api.normalizeSettings settingsOpt))
         else if Api.isBlank (Api.normalizeSettings settingsOpt).apiKey then
           Api.PostResult.errorJson 400 "API key is required in live mode."
         else if Api.isBlank (Api.normalizeSettings settingsOpt).sellerId then
           Api.PostResult.errorJson 400 "Seller ID is required in live mode."
         else
           Api.PostResult.liveRequest
             (match (Api.normalizeSettings settingsOpt).baseUrl with
              | none => Api.defaultIndiaMartUrl
              | some u => if u = "" then Api.defaultIndiaMartUrl else u)
             ((Api.normalizeSettings settingsOpt).apiKey.getD "")
             (Api.buildIndiaMartPayload product (Api.normalizeSettings settingsOpt))) := by
  simp only [Api.POST, hm]
  simp

/-- C8: for a record passing the required-field checks and settings in
simulate mode, `POST` returns the 200 simulated response carrying the
built payload and never reaches the outbound network call (the result is
`simulatedJson`, not `liveRequest`); the payload satisfies the fixed wire
mapping: `PRODUCT_NAME` is the input title, `IMAGE1`..`IMAGE3` are exactly
the first three image URLs (`""` when absent, later entries dropped —
the payload has no further image fields), `KEY_FEATURES` is the pipe-join
of the features, `KEYWORDS` the comma-join of the keywords, and
`CURRENCY_TYPE` defaults to `"INR"` when `currency` is absent. -/
theorem simulate_mode_payload_mapping (settings : Api.AgentSettings)
    (product : Api.ProductPayload)
    (h1 : product.title ≠ "") (h2 : Api.isBlank product.description = false)
    (h3 : Api.isBlank product.shortDescription = false)
    (hmode : settings.mode = some AgentMode.simulate) :
    Api.POST { settings := some settings, product := some product }
      = .simulatedJson (Api.buildIndiaMartPayload product (Api.normalizeSettings (some settings))) ∧
    (Api.buildIndiaMartPayload product (Api.normalizeSettings (some settings))).PRODUCT_NAME
      = product.title ∧
    (Api.buildIndiaMartPayload product (Api.normalizeSettings (some settings))).IMAGE1
      = (product.imageUrls.getD []).getD 0 "" ∧
    (Api.buildIndiaMartPayload product (Api.normalizeSettings (some settings))).IMAGE2
      = (product.imageUrls.getD []).getD 1 "" ∧
    (Api.buildIndiaMartPayload product (Api.normalizeSettings (some settings))).IMAGE3
      = (product.imageUrls.getD []).getD 2 "" ∧
    (Api.buildIndiaMartPayload product (Api.normalizeSettings (some settings))).KEY_FEATURES
      = String.intercalate "|" (product.features.getD []) ∧
    (Api.buildIndiaMartPayload product (Api.normalizeSettings (some settings))).KEYWORDS
      = String.intercalate "," (product.keywords.getD []) ∧
    (product.currency = none →
      (Api.buildIndiaMartPayload product (Api.normalizeSettings (some settings))).CURRENCY_TYPE
        = "INR") := by
  have hm := missingFields_nil product h1 h2 h3
  refine ⟨?_, rfl, rfl, rfl, rfl, ?_, ?_, fun hc => by simp [Api.buildIndiaMartPayload, hc]⟩
  · rw [POST_valid_eq (some settings) product hm,
      if_pos (by simp [Api.normalizeSettings, hmode])]
  · cases hf : product.features
    all_goals simp only [Api.buildIndiaMartPayload, hf, Option.getD]
    all_goals rfl
  · cases hk : product.keywords
    all_goals simp only [Api.buildIndiaMartPayload, hk, Option.getD]
    all_goals rfl

/-- Concrete simulate-mode settings for witnesses. -/
def apiSettingsSim : Api.AgentSettings :=
  { apiKey := some "", sellerId := some "SELL1", baseUrl := some "", mode := some .simulate }

/-- Concrete live-mode settings with a whitespace-only API key. -/
def apiSettingsLiveBlankKey : Api.AgentSettings :=
  { apiKey := some "   ", sellerId := some "SELL1", baseUrl := none, mode := some .live }

/-- Concrete live-mode settings with a whitespace-only seller id. -/
def apiSettingsLiveNoSeller : Api.AgentSettings :=
  { apiKey := some " key ", sellerId := some "  ", baseUrl := some "   ", mode := some .live }

/-- Concrete live-mode settings with padded credentials and a
whitespace-only base URL. -/
def apiSettingsTrimmed : Api.AgentSettings :=
  { apiKey := some "  key  ", sellerId := some " s1 ", baseUrl := some "   ", mode := some .live }

/-- A concrete valid product as the route receives it. -/
def apiProductA : Api.ProductPayload :=
  { title := "Copper Wire", category := some "Cables", price := some "10",
    currency := none, unit := some "Roll", stock := some "100",
    minOrderQty := some "5", keywords := some ["copper", "wire"],
    imageUrls := some ["u1", "u2", "u3", "u4"], shortDescription := some "sd",
    description := some "dd", features := some ["f1", "f2"],
    packaging := some "pk", leadTime := some "lt" }

/-- A concrete product with an empty description and an absent short
description. -/
def apiProductMissing : Api.ProductPayload :=
  { apiProductA with description := some "", shortDescription := none }

/-- Witness for C8 at concrete simulate-mode settings and a product with
four image URLs and no currency. -/
theorem simulate_mode_payload_mapping_witness :
    (apiProductA.title ≠ "" ∧ Api.isBlank apiProductA.description = false ∧
      Api.isBlank apiProductA.shortDescription = false ∧
      apiSettingsSim.mode = some AgentMode.simulate) ∧
    Api.POST { settings := some apiSettingsSim, product := some apiProductA }
      = .simulatedJson (Api.buildIndiaMartPayload apiProductA
          (Api.normalizeSettings (some apiSettingsSim))) ∧
    (Api.buildIndiaMartPayload apiProductA (Api.normalizeSettings (some apiSettingsSim))).PRODUCT_NAME
      = "Copper Wire" ∧
    (Api.buildIndiaMartPayload apiProductA (Api.normalizeSettings (some apiSettingsSim))).IMAGE1 = "u1" ∧
    (Api.buildIndiaMartPayload apiProductA (Api.normalizeSettings (some apiSettingsSim))).IMAGE2 = "u2" ∧
    (Api.buildIndiaMartPayload apiProductA (Api.normalizeSettings (some apiSettingsSim))).IMAGE3 = "u3" ∧
    (Api.buildIndiaMartPayload apiProductA (Api.normalizeSettings (some apiSettingsSim))).KEY_FEATURES
      = "f1|f2" ∧
    (Api.buildIndiaMartPayload apiProductA (Api.normalizeSettings (some apiSettingsSim))).KEYWORDS
      = "copper,wire" ∧
    (Api.buildIndiaMartPayload apiProductA (Api.normalizeSettings (some apiSettingsSim))).CURRENCY_TYPE
      = "INR" := by
  have h := simulate_mode_payload_mapping apiSettingsSim apiProductA
    (by decide) (by decide) (by decide) (by decide)
  exact ⟨⟨by decide, by decide, by decide, by decide⟩, h.1, by decide, by decide,
    by decide, by decide, by decide, by decide, by decide⟩

/-- C9: the `POST` handler enforces its preconditions before any network
call: when any of the three minimum fields is blank it answers HTTP 400
with a message naming every missing field (and only the blank minimum
fields are in that list); otherwise, in live mode, a blank (post-trim)
API key, or a blank seller id, each yields an HTTP 400 error response,
never reaching the `liveRequest` network boundary. -/
theorem submit_preconditions_enforced (st : Api.AgentSettings) (product : Api.ProductPayload) :
    (Api.missingFields product ≠ [] →
      ∀ settingsOpt : Option Api.AgentSettings,
        Api.POST { settings := settingsOpt, product := some product }
          = .errorJson 400 ("Missing required product fields: "
              ++ String.intercalate ", " (Api.missingFields product))) ∧
    (∀ field, field ∈ Api.missingFields product ↔
        field ∈ Api.MINIMUM_FIELDS ∧ Api.isBlank (Api.fieldValue product field) = true) ∧
    (Api.missingFields product = [] → st.mode = some AgentMode.live →
      Api.isBlank (st.apiKey.map jsTrim) = true →
        Api.POST { settings := some st, product := some product }
          = .errorJson 400 "API key is required in live mode.") ∧
    (Api.missingFields product = [] → st.mode = some AgentMode.live →
      Api.isBlank (st.apiKey.map jsTrim) = false →
      Api.isBlank (st.sellerId.map jsTrim) = true →
        Api.POST { settings := some st, product := some product }
          = .errorJson 400 "Seller ID is required in live mode.") := by
  refine ⟨fun hne settingsOpt => ?_, fun field => ?_,
    fun hm hlive hkey => ?_, fun hm hlive hkey hsid => ?_⟩
  · simp only [Api.POST]
    rw [if_pos hne]
  · simp [Api.missingFields, List.mem_filter]
  · rw [POST_valid_eq (some st) product hm,
      if_neg (by simp [Api.normalizeSettings, hlive]),
      if_pos (by simpa [Api.normalizeSettings] using hkey)]
  · rw [POST_valid_eq (some st) product hm,
      if_neg (by simp [Api.normalizeSettings, hlive]),
      if_neg (by simp [Api.normalizeSettings, hkey]),
      if_pos (by simpa [Api.normalizeSettings] using hsid)]

/-- Witness for C9: a product with a blank description and an absent short
description is rejected naming both; live mode with a whitespace-only API
key, or with a whitespace-only seller id, is rejected with the matching
credential error. -/
theorem submit_preconditions_enforced_witness :
    (Api.missingFields apiProductMissing ≠ [] ∧
      Api.missingFields apiProductMissing = ["description", "shortDescription"]) ∧
    Api.POST { settings := some apiSettingsSim, product := some apiProductMissing }
      = .errorJson 400 "Missing required product fields: description, shortDescription" ∧
    ("description" ∈ Api.missingFields apiProductMissing ∧
      "title" ∉ Api.missingFields apiProductMissing) ∧
    (Api.missingFields apiProductA = [] ∧
      Api.isBlank (apiSettingsLiveBlankKey.apiKey.map jsTrim) = true) ∧
    Api.POST { settings := some apiSettingsLiveBlankKey, product := some apiProductA }
      = .errorJson 400 "API key is required in live mode." ∧
    Api.POST { settings := some apiSettingsLiveNoSeller, product := some apiProductA }
      = .errorJson 400 "Seller ID is required in live mode." := by
  have h1 := submit_preconditions_enforced apiSettingsSim apiProductMissing
  have h2 := submit_preconditions_enforced apiSettingsLiveBlankKey apiProductA
  have h3 := submit_preconditions_enforced apiSettingsLiveNoSeller apiProductA
  refine ⟨⟨by decide, by decide⟩, ?_, ⟨by decide, by decide⟩,
    ⟨by decide, by decide⟩,
    h2.2.2.1 (by decide) (by decide) (by decide),
    h3.2.2.2 (by decide) (by decide) (by decide) (by decide)⟩
  rw [h1.1 (by decide) (some apiSettingsSim)]
  decide

/-- C10: before the emptiness checks the route trims `apiKey`, `sellerId`
and `baseUrl`; hence a whitespace-only API key or seller id in live mode
is rejected as missing credentials, a whitespace-only `baseUrl` falls back
to the default endpoint, and the `authtoken` of the outbound request is
the trimmed API key. -/
theorem credentials_trimmed_before_checks (st : Api.AgentSettings)
    (product : Api.ProductPayload)
    (hval : Api.missingFields product = []) (hmode : st.mode = some AgentMode.live) :
    (∀ k, st.apiKey = some k → jsTrim k = "" →
      Api.POST { settings := some st, product := some product }
        = .errorJson 400 "API key is required in live mode.") ∧
    (∀ k sid, st.apiKey = some k → jsTrim k ≠ "" → st.sellerId = some sid → jsTrim sid = "" →
      Api.POST { settings := some st, product := some product }
        = .errorJson 400 "Seller ID is required in live mode.") ∧
    (∀ k sid, st.apiKey = some k → jsTrim k ≠ "" → st.sellerId = some sid → jsTrim sid ≠ "" →
      Api.POST { settings := some st, product := some product }
        = .liveRequest
            (match st.baseUrl with
             | none => Api.defaultIndiaMartUrl
             | some u => if jsTrim u = "" then Api.defaultIndiaMartUrl else jsTrim u)
            (jsTrim k)
            (Api.buildIndiaMartPayload product (Api.normalizeSettings (some st)))) := by
  refine ⟨fun k hk hkt => ?_, fun k sid hk hkt hs hst => ?_, fun k sid hk hkt hs hst => ?_⟩
  · rw [POST_valid_eq (some st) product hval,
      if_neg (by simp [Api.normalizeSettings, hmode]),
      if_pos (by simp [Api.normalizeSettings, Api.isBlank, hk, hkt])]
  · rw [POST_valid_eq (some st) product hval,
      if_neg (by simp [Api.normalizeSettings, hmode]),
      if_neg (by simp [Api.normalizeSettings, Api.isBlank, hk, hkt]),
      if_pos (by simp [Api.normalizeSettings, Api.isBlank, hs, hst])]
  · rw [POST_valid_eq (some st) product hval,
      if_neg (by simp [Api.normalizeSettings, hmode]),
      if_neg (by simp [Api.normalizeSettings, Api.isBlank, hk, hkt]),
      if_neg (by simp [Api.normalizeSettings, Api.isBlank, hs, hst])]
    cases hb : st.baseUrl <;> simp [Api.normalizeSettings, hk, hb]

/-- Witness for C10: padded credentials are trimmed (the `authtoken` sent
is `"key"`, not `"  key  "`), a whitespace-only base URL falls back to the
default endpoint, and whitespace-only credentials are rejected. -/
theorem credentials_trimmed_before_checks_witness :
    (Api.missingFields apiProductA = [] ∧
      apiSettingsLiveBlankKey.mode = some AgentMode.live ∧ jsTrim "   " = "") ∧
    Api.POST { settings := some apiSettingsLiveBlankKey, product := some apiProductA }
      = .errorJson 400 "API key is required in live mode." ∧
    Api.POST { settings := some apiSettingsLiveNoSeller, product := some apiProductA }
      = .errorJson 400 "Seller ID is required in live mode." ∧
    Api.POST { settings := some apiSettingsTrimmed, product := some apiProductA }
      = .liveRequest Api.defaultIndiaMartUrl "key"
          (Api.buildIndiaMartPayload apiProductA (Api.normalizeSettings (some apiSettingsTrimmed))) := by
  have hA := credentials_trimmed_before_checks apiSettingsLiveBlankKey apiProductA
    (by decide) (by decide)
  have hB := credentials_trimmed_before_checks apiSettingsLiveNoSeller apiProductA
    (by decide) (by decide)
  have hC := credentials_trimmed_before_checks apiSettingsTrimmed apiProductA
    (by decide) (by decide)
  refine ⟨⟨by decide, by decide, by decide⟩,
    hA.1 "   " (by decide) (by decide),
    hB.2.1 " key " "  " (by decide) (by decide) (by decide) (by decide), ?_⟩
  rw [hC.2.2 "  key  " " s1 " (by decide) (by decide) (by decide) (by decide)]
  decide

/-! ## Queue runner lemmas (claims C1, C2, C3, C4) -/

lemma processFinish_queue (settings : Page.AgentSettings) (s : AgentState)
    (next : Page.ProductPayload) (o : DispatchOutcome) :
    (processFinish settings s next o).queue
      = s.queue.filter (fun item => item.id != next.id) := by
  cases o <;> rfl

lemma processFinish_active (settings : Page.AgentSettings) (s : AgentState)
    (next : Page.ProductPayload) (o : DispatchOutcome) :
    (processFinish settings s next o).activeProductId = none := by
  cases o <;> rfl

lemma processFinish_processing (settings : Page.AgentSettings) (s : AgentState)
    (next : Page.ProductPayload) (o : DispatchOutcome) :
    (processFinish settings s next o).processing = s.processing := by
  cases o <;> rfl

lemma processFinish_logs (settings : Page.AgentSettings) (s : AgentState)
    (next : Page.ProductPayload) (o : DispatchOutcome) :
    (processFinish settings s next o).logs = s.logs ++ [outcomeEntry settings next o s.tick] := by
  cases o <;> rfl

lemma processFinish_terminalCount (settings : Page.AgentSettings) (s : AgentState)
    (next : Page.ProductPayload) (o : DispatchOutcome) :
    terminalCount (processFinish settings s next o).logs = terminalCount s.logs + 1 := by
  rw [processFinish_logs, terminalCount_append]
  cases o <;> rfl

lemma processStart_not_processing (settings : Page.AgentSettings) (s : AgentState)
    (h : s.processing = false) : processStart settings s = (s, none) := by
  simp [processStart, h]

lemma processStart_dispatches (settings : Page.AgentSettings) (s : AgentState)
    (next : Page.ProductPayload) (rest : List Page.ProductPayload)
    (hp : s.processing = true) (ha : s.activeProductId = none)
    (hq : s.queue = next :: rest) :
    processStart settings s
      = (appendLog { s with activeProductId := some next.id } .info
          ("Processing: " ++ displayTitle next.payload "Untitled product")
          (some ("Attempting IndiaMART sync in "
            ++ (if settings.mode = AgentMode.simulate then "simulation" else "live")
            ++ " mode.")), some next) := by
  simp [processStart, hp, ha, hq]

lemma processStart_complete (settings : Page.AgentSettings) (s : AgentState)
    (hp : s.processing = true) (ha : s.activeProductId = none) (hq : s.queue = []) :
    processStart settings s
      = (appendLog { s with processing := false } .success "Queue complete"
          (some "All products processed successfully."), none) := by
  simp [processStart, hp, ha, hq]

lemma filter_ne_head (next : Page.ProductPayload) (rest : List Page.ProductPayload)
    (h : next.id ∉ rest.map (fun it => it.id)) :
    (next :: rest).filter (fun item => item.id != next.id) = rest := by
  rw [List.filter_cons]
  simp only [bne_self_eq_false, Bool.false_eq_true, if_false]
  rw [List.filter_eq_self]
  intro a ha
  simp only [bne_iff_ne, ne_eq]
  intro hcontr
  exact h (by rw [← hcontr]; exact List.mem_map_of_mem _ ha)

lemma not_mem_removed (q : List Page.ProductPayload) (n : Nat) :
    n ∉ (q.filter (fun item => item.id != n)).map (fun it => it.id) := by
  intro hmem
  simp only [List.mem_map, List.mem_filter] at hmem
  obtain ⟨it, ⟨_, hne⟩, heq⟩ := hmem
  rw [heq] at hne
  simp at hne

lemma foldl_addToQueue_payloads {α : Type} (settings : Page.AgentSettings)
    (f : α → Page.ProductDraft) (xs : List α) : ∀ s : AgentState,
    ((xs.foldl (fun st x => addToQueue settings st (f x)) s).queue).map (fun it => it.payload)
      = s.queue.map (fun it => it.payload) ++ xs.map f := by
  induction xs with
  | nil => intro s; simp
  | cons x xs ih =>
    intro s
    simp only [List.foldl_cons, List.map_cons]
    rw [ih, addToQueue_queue]
    simp

lemma foldl_addToQueue_terminalCount {α : Type} (settings : Page.AgentSettings)
    (f : α → Page.ProductDraft) (xs : List α) : ∀ s : AgentState,
    terminalCount ((xs.foldl (fun st x => addToQueue settings st (f x)) s).logs)
      = terminalCount s.logs := by
  induction xs with
  | nil => intro s; rfl
  | cons x xs ih =>
    intro s
    simp only [List.foldl_cons]
    rw [ih, addToQueue_terminalCount]

lemma foldl_addToQueue_active {α : Type} (settings : Page.AgentSettings)
    (f : α → Page.ProductDraft) (xs : List α) : ∀ s : AgentState,
    (xs.foldl (fun st x => addToQueue settings st (f x)) s).activeProductId
      = s.activeProductId := by
  induction xs with
  | nil => intro s; rfl
  | cons x xs ih =>
    intro s
    simp only [List.foldl_cons]
    rw [ih, addToQueue_active]

/-- Well-formedness of the queue: item ids are pairwise distinct and below
the id counter (which holds in every reachable state, since ids are drawn
from the monotone counter). -/
def QueueWF (s : AgentState) : Prop :=
  (s.queue.map (fun it => it.id)).Nodup ∧ ∀ it ∈ s.queue, it.id < s.tick

lemma addToQueue_wf (settings : Page.AgentSettings) (s : AgentState) (p : Page.ProductDraft)
    (h : QueueWF s) : QueueWF (addToQueue settings s p) := by
  obtain ⟨hnd, hlt⟩ := h
  constructor
  · rw [addToQueue_queue]
    simp only [List.map_append, List.map_cons, List.map_nil]
    rw [List.nodup_append]
    refine ⟨hnd, List.nodup_singleton _, ?_⟩
    intro a ha hb
    simp only [List.mem_singleton] at hb
    simp only [List.mem_map] at ha
    obtain ⟨it, hit, hid⟩ := ha
    have hb2 : a = s.tick := hb
    have := hlt it hit
    omega
  · intro it hit
    rw [addToQueue_queue] at hit
    rw [addToQueue_tick]
    rcases List.mem_append.mp hit with hin | hin
    · have := hlt it hin; omega
    · simp only [List.mem_singleton] at hin
      rw [hin]
      show s.tick < s.tick + 2
      omega

lemma foldl_addToQueue_wf {α : Type} (settings : Page.AgentSettings)
    (f : α → Page.ProductDraft) (xs : List α) : ∀ s : AgentState,
    QueueWF s → QueueWF (xs.foldl (fun st x => addToQueue settings st (f x)) s) := by
  induction xs with
  | nil => intro s h; exact h
  | cons x xs ih =>
    intro s h
    simp only [List.foldl_cons]
    exact ih _ (addToQueue_wf settings s (f x) h)

lemma parseCsvLines_complete_queue (settings : Page.AgentSettings) (s : AgentState)
    (headerLine : String) (rows : List String)
    (hmiss : missingColumnsOf (headersOfLine headerLine) = []) :
    (parseCsvLinesState settings s (headerLine :: rows)).queue.map (fun it => it.payload)
      = s.queue.map (fun it => it.payload)
        ++ rows.map (rowToDraft (headersOfLine headerLine)) := by
  simp only [parseCsvLinesState, hmiss]
  rw [if_neg (by simp), appendLog_queue]
  exact foldl_addToQueue_payloads settings (rowToDraft (headersOfLine headerLine)) rows s

/-! ## Concrete scenario data for witnesses and counterexamples -/

/-- A valid draft. -/
def draftA : Page.ProductDraft :=
  { Page.initialDraft with
    title := "Copper Wire"
    shortDescription := "Short summary"
    description := "Long description" }

/-- A second valid draft. -/
def draftB : Page.ProductDraft :=
  { Page.initialDraft with
    title := "Steel Rod"
    shortDescription := "s"
    description := "d" }

/-- Queued items built from the drafts, with distinct ids. -/
def itemA : Page.ProductPayload := { id := 0, createdAt := 0, payload := draftA }

def itemB : Page.ProductPayload := { id := 1, createdAt := 1, payload := draftB }

/-- A running state with two items queued and none in flight. -/
def stateAB : AgentState :=
  { queue := [itemA, itemB], processing := true, activeProductId := none,
    logs := [], draft := Page.initialDraft, tick := 2 }

/-- The dispatch oracle of the default (simulate-mode) settings. -/
def simOutcome : Page.ProductPayload → DispatchOutcome :=
  fun item => simulateDispatch Page.defaultSettings item

/-- The documented CSV header line. -/
def csvHeaderLine : String :=
  "title,category,price,currency,unit,stock,minorderqty,keywords,imageurls,shortdescription,description,features,packaging,leadtime"

/-- A CSV file whose single data row has an empty `title` cell. -/
def csvEmptyTitleText : String :=
  csvHeaderLine ++ "\n,Cables,10,INR,Unit,100,5,kw,img,sd,dd,ft,pk,lt"

/-- C1 counterexample: importing a CSV file whose data row has an empty
title cell enqueues a `QueuedItem` whose draft title is empty — no
`ValidationError` is reported (zero error-level log events) — so the
non-empty-title invariant does not hold on the CSV enqueue path. -/
theorem csv_import_admits_empty_title :
    (parseCsvFile Page.defaultSettings initialState csvEmptyTitleText).queue.map
        (fun it => it.payload.title) = [""] ∧
    errorLevelCount (parseCsvFile Page.defaultSettings initialState csvEmptyTitleText).logs
      = 0 := by
  exact ⟨by decide, by decide⟩

/-- C1 (amended): the non-empty-title rule is enforced only on the manual
form path: `handleAddDraftToQueue` rejects an empty-title draft with one
error-level log event, keeps the draft for correction and leaves the queue
unchanged, and enqueues the draft otherwise; but `parseCsvFile` enqueues
every data row of a schema-valid file without any title check, so
empty-title items can enter the queue from CSV import. -/
theorem title_required_manual_path_only (settings : Page.AgentSettings) (s : AgentState) :
    (s.draft.title = "" →
      (handleAddDraftToQueue settings s).queue = s.queue ∧
      (handleAddDraftToQueue settings s).draft = s.draft ∧
      (handleAddDraftToQueue settings s).logs
        = s.logs ++ [{ id := s.tick, level := .error, headline := "Missing product name",
                       details := some "Add a product title before queuing.",
                       timestamp := s.tick }]) ∧
    (s.draft.title ≠ "" →
      (handleAddDraftToQueue settings s).queue.map (fun it => it.payload)
        = s.queue.map (fun it => it.payload) ++ [s.draft] ∧
      (handleAddDraftToQueue settings s).draft = Page.initialDraft) ∧
    (∀ (text headerLine : String) (rows : List String),
      csvLines text = headerLine :: rows →
      missingColumnsOf (headersOfLine headerLine) = [] →
      (parseCsvFile settings s text).queue.map (fun it => it.payload)
        = s.queue.map (fun it => it.payload)
          ++ rows.map (rowToDraft (headersOfLine headerLine))) := by
  refine ⟨fun he => ?_, fun hne => ?_, fun text headerLine rows hlines hmiss => ?_⟩
  · rw [handleAddDraftToQueue, if_pos he]
    exact ⟨rfl, rfl, rfl⟩
  · rw [handleAddDraftToQueue, if_neg hne]
    constructor
    · show (addToQueue settings s s.draft).queue.map (fun it => it.payload) = _
      rw [addToQueue_queue]; simp
    · rfl
  · rw [parseCsvFile, hlines]
    exact parseCsvLines_complete_queue settings s headerLine rows hmiss

/-- Witness for C1 (amended): an empty-title draft is rejected and
retained; a titled draft is enqueued; the schema-valid CSV file with an
untitled row enqueues that row. -/
def stateDraftA : AgentState := { initialState with draft := draftA }

theorem title_required_manual_path_only_witness :
    (initialState.draft.title = "" ∧ stateDraftA.draft.title ≠ "") ∧
    (handleAddDraftToQueue Page.defaultSettings initialState).queue = [] ∧
    (handleAddDraftToQueue Page.defaultSettings initialState).draft = Page.initialDraft ∧
    errorLevelCount (handleAddDraftToQueue Page.defaultSettings initialState).logs = 1 ∧
    (handleAddDraftToQueue Page.defaultSettings stateDraftA).queue.map
        (fun it => it.payload) = [draftA] ∧
    (handleAddDraftToQueue Page.defaultSettings stateDraftA).draft = Page.initialDraft ∧
    (parseCsvFile Page.defaultSettings initialState csvEmptyTitleText).queue.map
        (fun it => it.payload)
      = [rowToDraft (headersOfLine csvHeaderLine)
          ",Cables,10,INR,Unit,100,5,kw,img,sd,dd,ft,pk,lt"] := by
  have h := title_required_manual_path_only Page.defaultSettings initialState
  have hd := title_required_manual_path_only Page.defaultSettings stateDraftA
  have h1 := h.1 (by decide)
  have h2 := hd.2.1 (by decide)
  have h3 := h.2.2 csvEmptyTitleText csvHeaderLine
    [",Cables,10,INR,Unit,100,5,kw,img,sd,dd,ft,pk,lt"] (by decide) (by decide)
  refine ⟨⟨by decide, by decide⟩, h1.1, by rw [h1.2.1]; decide,
    by rw [h1.2.2]; decide, by rw [h2.1]; decide, h2.2, by rw [h3]; decide⟩

/-- C2: when a dispatched item fails, the `catch` of `processNextProduct`
logs exactly one error-level event, the `finally` block removes the item
from the current queue by its id (every surviving item is exactly one with
a different id, in order, whatever the queue holds at completion time) and
clears `activeProductId`; the runner keeps `processing` set, the failed
item's id no longer occurs in the queue (no retry), and the next drain
step dispatches the next queued item. -/
theorem per_item_failure_isolated (settings : Page.AgentSettings) (s : AgentState)
    (next h2 : Page.ProductPayload) (rest : List Page.ProductPayload) (message : String)
    (hproc : s.processing = true) (hq : s.queue = next :: h2 :: rest)
    (hid : h2.id ≠ next.id) :
    (processFinish settings s next (.failed message)).logs
      = s.logs ++ [{ id := s.tick, level := .error,
                     headline := "Failed: " ++ displayTitle next.payload "Untitled product",
                     details := some message, timestamp := s.tick }] ∧
    errorLevelCount (processFinish settings s next (.failed message)).logs
      = errorLevelCount s.logs + 1 ∧
    (processFinish settings s next (.failed message)).queue
      = s.queue.filter (fun item => item.id != next.id) ∧
    next.id ∉ (processFinish settings s next (.failed message)).queue.map (fun it => it.id) ∧
    (processFinish settings s next (.failed message)).activeProductId = none ∧
    (processFinish settings s next (.failed message)).processing = true ∧
    (processStart settings (processFinish settings s next (.failed message))).2 = some h2 := by
  have hqueue : (processFinish settings s next (.failed message)).queue
      = h2 :: (rest.filter (fun item => item.id != next.id)) := by
    rw [processFinish_queue, hq]
    rw [List.filter_cons, List.filter_cons]
    simp [bne_iff_ne, hid]
  refine ⟨rfl, ?_, processFinish_queue settings s next _, ?_, processFinish_active settings s next _,
    by rw [processFinish_processing]; exact hproc, ?_⟩
  · show errorLevelCount (s.logs ++ [_]) = _
    simp [errorLevelCount, List.filter_append, isErrorLevel]
  · rw [processFinish_queue]
    exact not_mem_removed s.queue next.id
  · have hp2 : (processFinish settings s next (.failed message)).processing = true := by
      rw [processFinish_processing]; exact hproc
    rw [processStart, if_neg (by simp [hp2]),
      if_neg (by simp [processFinish_active])]
    rw [hqueue]

/-- Witness for C2 at a concrete two-item queue and a network failure
message. -/
theorem per_item_failure_isolated_witness :
    (stateAB.processing = true ∧ stateAB.queue = itemA :: itemB :: [] ∧ itemB.id ≠ itemA.id) ∧
    (processFinish Page.defaultSettings stateAB itemA (.failed "Network down")).queue = [itemB] ∧
    errorLevelCount (processFinish Page.defaultSettings stateAB itemA (.failed "Network down")).logs
      = 1 ∧
    (processFinish Page.defaultSettings stateAB itemA (.failed "Network down")).activeProductId
      = none ∧
    (processFinish Page.defaultSettings stateAB itemA (.failed "Network down")).processing = true ∧
    (processStart Page.defaultSettings
        (processFinish Page.defaultSettings stateAB itemA (.failed "Network down"))).2
      = some itemB := by
  have h := per_item_failure_isolated Page.defaultSettings stateAB itemA itemB [] "Network down"
    (by decide) (by decide) (by decide)
  refine ⟨⟨by decide, by decide, by decide⟩, ?_, ?_, h.2.2.2.2.1, h.2.2.2.2.2.1, h.2.2.2.2.2.2⟩
  · rw [h.2.2.1]; decide
  · rw [h.2.1]; decide

/-- The "Processing" info entry logged when a dispatch starts, at counter
value `t`. -/
def processingEntry (settings : Page.AgentSettings) (next : Page.ProductPayload)
    (t : Nat) : Page.LogEntry :=
  { id := t, level := .info,
    headline := "Processing: " ++ displayTitle next.payload "Untitled product",
    details := some ("Attempting IndiaMART sync in "
      ++ (if settings.mode = AgentMode.simulate then "simulation" else "live")
      ++ " mode."),
    timestamp := t }

/-- The "Agent paused" info entry logged by `stopAgent`, at counter value
`t`. -/
def pausedEntry (t : Nat) : Page.LogEntry :=
  { id := t, level := .info, headline := "Agent paused",
    details := some "Automation paused manually.", timestamp := t }

/-- The stop-mid-drain scenario: a dispatch starts, the operator presses
pause while it is in flight, and the dispatch later completes. -/
def stopThenFinish (settings : Page.AgentSettings) (s : AgentState)
    (next : Page.ProductPayload) (outcome : DispatchOutcome) : AgentState :=
  processFinish settings (stopAgent (processStart settings s).1) next outcome

/-- C4: `stopAgent` moves any state to Idle, clears `activeProductId` and
logs the paused info event; in the stop-mid-drain scenario the in-flight
item's outcome is still logged after the stop (the log ends with the
processing, paused and outcome entries, in order), but the runner stays
stopped: the scheduled `processNextProduct` continuation is a no-op, and
only a new `start()` lets the next queued item dispatch. -/
theorem stop_pauses_without_cancelling_inflight (settings : Page.AgentSettings)
    (s : AgentState) (next : Page.ProductPayload) (rest : List Page.ProductPayload)
    (outcome : DispatchOutcome)
    (hproc : s.processing = true) (hact : s.activeProductId = none)
    (hq : s.queue = next :: rest) :
    (∀ t : AgentState, (stopAgent t).processing = false ∧
        (stopAgent t).activeProductId = none ∧
        (stopAgent t).logs = t.logs ++ [pausedEntry t.tick]) ∧
    (processStart settings s).2 = some next ∧
    (stopThenFinish settings s next outcome).logs
      = s.logs ++ [processingEntry settings next s.tick,
                   pausedEntry (s.tick + 1),
                   outcomeEntry settings next outcome (s.tick + 2)] ∧
    (stopThenFinish settings s next outcome).processing = false ∧
    processStart settings (stopThenFinish settings s next outcome)
      = (stopThenFinish settings s next outcome, none) ∧
    (∀ hd tl, (stopThenFinish settings s next outcome).queue = hd :: tl →
      (processStart settings (runAgent (stopThenFinish settings s next outcome))).2
        = some hd) := by
  have hstart := processStart_dispatches settings s next rest hproc hact hq
  have hfst : (processStart settings s).1
      = appendLog { s with activeProductId := some next.id } .info
          ("Processing: " ++ displayTitle next.payload "Untitled product")
          (some ("Attempting IndiaMART sync in "
            ++ (if settings.mode = AgentMode.simulate then "simulation" else "live")
            ++ " mode.")) := by
    rw [hstart]
  have hstop : (stopThenFinish settings s next outcome).processing = false := by
    rw [stopThenFinish, processFinish_processing]
    rfl
  refine ⟨fun t => ⟨rfl, rfl, rfl⟩, by rw [hstart], ?_, hstop,
    processStart_not_processing settings _ hstop, fun hd tl hqd => ?_⟩
  · rw [stopThenFinish, processFinish_logs, hfst]
    simp [stopAgent, appendLog, processingEntry, pausedEntry]
  · have hre : runAgent (stopThenFinish settings s next outcome)
        = { stopThenFinish settings s next outcome with processing := true } := by
      rw [runAgent, if_neg (by simp [hstop]), if_neg (by simp [hqd])]
    have hp2 : (runAgent (stopThenFinish settings s next outcome)).processing = true := by
      rw [hre]
    have ha2 : (runAgent (stopThenFinish settings s next outcome)).activeProductId = none := by
      rw [hre]
      show (stopThenFinish settings s next outcome).activeProductId = none
      exact processFinish_active _ _ _ _
    have hq2 : (runAgent (stopThenFinish settings s next outcome)).queue = hd :: tl := by
      rw [hre]
      show (stopThenFinish settings s next outcome).queue = hd :: tl
      exact hqd
    rw [processStart_dispatches settings _ hd tl hp2 ha2 hq2]

/-- Witness for C4: pausing `stateAB` mid-dispatch of `itemA` still logs
the dispatch outcome, suppresses the next dispatch, and a new start
dispatches `itemB`. -/
theorem stop_pauses_without_cancelling_inflight_witness :
    (stateAB.processing = true ∧ stateAB.activeProductId = none ∧
      stateAB.queue = itemA :: [itemB]) ∧
    (stopAgent stateAB).processing = false ∧
    (stopAgent stateAB).activeProductId = none ∧
    (processStart Page.defaultSettings stateAB).2 = some itemA ∧
    (stopThenFinish Page.defaultSettings stateAB itemA (.ok "simulated")).logs
      = [processingEntry Page.defaultSettings itemA 2, pausedEntry 3,
         outcomeEntry Page.defaultSettings itemA (.ok "simulated") 4] ∧
    (stopThenFinish Page.defaultSettings stateAB itemA (.ok "simulated")).processing = false ∧
    processStart Page.defaultSettings
        (stopThenFinish Page.defaultSettings stateAB itemA (.ok "simulated"))
      = (stopThenFinish Page.defaultSettings stateAB itemA (.ok "simulated"), none) ∧
    (processStart Page.defaultSettings
        (runAgent (stopThenFinish Page.defaultSettings stateAB itemA (.ok "simulated")))).2
      = some itemB := by
  have h := stop_pauses_without_cancelling_inflight Page.defaultSettings stateAB itemA [itemB]
    (.ok "simulated") (by decide) (by decide) (by decide)
  refine ⟨⟨by decide, by decide, by decide⟩, (h.1 stateAB).1, (h.1 stateAB).2.1, h.2.1, ?_,
    h.2.2.2.1, h.2.2.2.2.1, h.2.2.2.2.2 itemB [] (by decide)⟩
  rw [h.2.2.1]
  decide

lemma drain_complete (settings : Page.AgentSettings)
    (outcome : Page.ProductPayload → DispatchOutcome) :
    ∀ (items : List Page.ProductPayload) (fuel : Nat) (s : AgentState),
      s.processing = true → s.activeProductId = none → s.queue = items →
      (items.map (fun it => it.id)).Nodup → items.length < fuel →
      (drain settings outcome fuel s).queue = [] ∧
      (drain settings outcome fuel s).processing = false ∧
      (drain settings outcome fuel s).activeProductId = none ∧
      terminalCount (drain settings outcome fuel s).logs
        = terminalCount s.logs + items.length + 1 := by
  intro items
  induction items with
  | nil =>
    intro fuel s hp ha hq _ hfuel
    cases fuel with
    | zero => omega
    | succ f =>
      have hdrain : drain settings outcome (f + 1) s
          = appendLog { s with processing := false } .success "Queue complete"
              (some "All products processed successfully.") := by
        rw [drain, processStart_complete settings s hp ha hq]
      rw [hdrain]
      refine ⟨?_, rfl, ?_, ?_⟩
      · rw [appendLog_queue]; exact hq
      · rw [appendLog_active]; exact ha
      · rw [terminalCount_appendLog_success]
        simp
  | cons next rest ih =>
    intro fuel s hp ha hq hnd hfuel
    cases fuel with
    | zero => simp at hfuel
    | succ f =>
      have hstart := processStart_dispatches settings s next rest hp ha hq
      have hnotin : next.id ∉ rest.map (fun it => it.id) := by
        rw [List.map_cons, List.nodup_cons] at hnd
        exact hnd.1
      have hndrest : (rest.map (fun it => it.id)).Nodup := by
        rw [List.map_cons, List.nodup_cons] at hnd
        exact hnd.2
      set s1 := appendLog { s with activeProductId := some next.id } .info
          ("Processing: " ++ displayTitle next.payload "Untitled product")
          (some ("Attempting IndiaMART sync in "
            ++ (if settings.mode = AgentMode.simulate then "simulation" else "live")
            ++ " mode.")) with hs1def
      have hs1p : s1.processing = true := by
        rw [hs1def, appendLog_processing]; exact hp
      have hs1q : s1.queue = next :: rest := by
        rw [hs1def, appendLog_queue]; exact hq
      have hs1t : terminalCount s1.logs = terminalCount s.logs := by
        rw [hs1def, terminalCount_appendLog_info]
      set s2 := processFinish settings s1 next (outcome next) with hs2def
      have hs2p : s2.processing = true := by
        rw [hs2def, processFinish_processing]; exact hs1p
      have hs2q : s2.queue = rest := by
        rw [hs2def, processFinish_queue, hs1q]
        exact filter_ne_head next rest hnotin
      have hs2a : s2.activeProductId = none := by
        rw [hs2def]; exact processFinish_active _ _ _ _
      have hs2t : terminalCount s2.logs = terminalCount s.logs + 1 := by
        rw [hs2def, processFinish_terminalCount, hs1t]
      have hdrain : drain settings outcome (f + 1) s = drain settings outcome f s2 := by
        rw [drain, hstart]
        show (if s2.processing = true then drain settings outcome f s2 else s2)
          = drain settings outcome f s2
        rw [if_pos hs2p]
      rw [hdrain]
      have hlen : rest.length < f := by
        simp only [List.length_cons] at hfuel
        omega
      obtain ⟨r1, r2, r3, r4⟩ := ih f s2 hs2p hs2a hs2q hndrest hlen
      refine ⟨r1, r2, r3, ?_⟩
      rw [r4, hs2t]
      simp only [List.length_cons]
      omega

lemma runAgent_queue_ne (s : AgentState) (h : s.queue ≠ []) :
    (runAgent s).processing = true ∧ (runAgent s).queue = s.queue ∧
    (runAgent s).activeProductId = s.activeProductId ∧
    (runAgent s).logs = s.logs := by
  by_cases hp : s.processing = true
  · rw [runAgent, if_pos hp]
    exact ⟨hp, rfl, rfl, rfl⟩
  · rw [runAgent, if_neg hp, if_neg (by simp [List.length_eq_zero, h])]
    exact ⟨rfl, rfl, rfl, rfl⟩

/-- C3 (amended): for every non-empty sequence of N successful enqueues
followed by `start()` and a full drain with no further operator input, the
queue ends empty with the runner Idle, and the run produces exactly N + 1
log events at level `success` or `error`: one terminal event per item plus
the final "Queue complete" success event. -/
theorem drain_produces_n_plus_one_terminal_events (settings : Page.AgentSettings)
    (outcome : Page.ProductPayload → DispatchOutcome)
    (drafts : List Page.ProductDraft) (hne : drafts ≠ []) :
    (runAll settings outcome drafts).queue = [] ∧
    (runAll settings outcome drafts).processing = false ∧
    (runAll settings outcome drafts).activeProductId = none ∧
    terminalCount (runAll settings outcome drafts).logs = drafts.length + 1 := by
  rw [runAll]
  set s1 := enqueueAll settings drafts initialState with hs1
  have hpay : s1.queue.map (fun it => it.payload) = drafts := by
    rw [hs1, enqueueAll]
    have := foldl_addToQueue_payloads settings (fun d => d) drafts initialState
    simpa using this
  have hqne : s1.queue ≠ [] := by
    intro hq
    apply hne
    rw [← hpay, hq]
    rfl
  have hact : s1.activeProductId = none := by
    have := foldl_addToQueue_active settings (fun d => d) drafts initialState
    rw [hs1, enqueueAll]
    simpa using this
  have hterm : terminalCount s1.logs = 0 := by
    rw [hs1, enqueueAll]
    exact (foldl_addToQueue_terminalCount settings (fun d => d) drafts initialState).trans rfl
  have hwf : QueueWF s1 := by
    rw [hs1, enqueueAll]
    have h0 : QueueWF initialState :=
      ⟨by simp [initialState], fun it h => absurd h (List.not_mem_nil it)⟩
    have := foldl_addToQueue_wf settings (fun d => d) drafts initialState h0
    simpa using this
  have hlen : s1.queue.length = drafts.length := by
    rw [← hpay, List.length_map]
  obtain ⟨hr1, hr2, hr3, hr4⟩ := runAgent_queue_ne s1 hqne
  obtain ⟨d1, d2, d3, d4⟩ := drain_complete settings outcome (runAgent s1).queue
    ((runAgent s1).queue.length + 1) (runAgent s1) hr1 (by rw [hr3]; exact hact) rfl
    (by rw [hr2]; exact hwf.1) (Nat.lt_succ_self _)
  refine ⟨d1, d2, d3, ?_⟩
  rw [d4, hr4, hterm, hr2, hlen]
  omega

/-- C3 counterexample: a single successful enqueue followed by `start()`
drains the queue to empty and leaves the runner Idle, but the run produces
2 log events at level `success` or `error` — the item's "Uploaded" success
event plus the final "Queue complete" success event — not exactly 1. -/
theorem terminal_events_exceed_enqueues :
    (runAll Page.defaultSettings simOutcome [draftA]).queue = [] ∧
    (runAll Page.defaultSettings simOutcome [draftA]).processing = false ∧
    terminalCount (runAll Page.defaultSettings simOutcome [draftA]).logs = 2 ∧
    terminalCount (runAll Page.defaultSettings simOutcome [draftA]).logs ≠ 1 := by
  exact ⟨by decide, by decide, by decide, by decide⟩

/-- Witness for C3 (amended) at one concrete enqueue-then-start run in
simulate mode. -/
theorem drain_produces_n_plus_one_terminal_events_witness :
    (([draftA] : List Page.ProductDraft) ≠ []) ∧
    (runAll Page.defaultSettings simOutcome [draftA]).queue = [] ∧
    (runAll Page.defaultSettings simOutcome [draftA]).processing = false ∧
    (runAll Page.defaultSettings simOutcome [draftA]).activeProductId = none ∧
    terminalCount (runAll Page.defaultSettings simOutcome [draftA]).logs = 2 := by
  have h := drain_produces_n_plus_one_terminal_events Page.defaultSettings simOutcome
    [draftA] (by decide)
  exact ⟨by decide, h.1, h.2.1, h.2.2.1, h.2.2.2⟩

lemma parseCsvLines_schema_error (settings : Page.AgentSettings) (s : AgentState)
    (headerLine : String) (rows : List String)
    (hmiss : missingColumnsOf (headersOfLine headerLine) ≠ []) :
    parseCsvLinesState settings s (headerLine :: rows)
      = appendLog s .error "CSV headers mismatch"
          (some ("Missing columns: "
            ++ String.intercalate ", " (missingColumnsOf (headersOfLine headerLine)))) := by
  simp only [parseCsvLinesState]
  rw [if_pos hmiss]

/-- A row line for the concrete CSV files below. -/
def csvCompactRow : String := "Wire,Cables,10,INR,Roll,100,5,kw,img,sd,dd,ft,pk,3 days"

/-- A schema-valid CSV file with one data row. -/
def csvCompactText : String := csvHeaderLine ++ "\n" ++ csvCompactRow

/-- The same file with an interior blank line, a whitespace-only line and
a trailing newline added. -/
def csvBlankLinesText : String :=
  csvHeaderLine ++ "\n\n" ++ csvCompactRow ++ "\n   \n"

/-- The documented header with its columns permuted (`leadtime` first). -/
def csvPermutedHeader : String :=
  "leadtime,title,category,price,currency,unit,stock,minorderqty,keywords,imageurls,shortdescription,description,features,packaging"

/-- The compact row reordered to match the permuted header. -/
def csvPermutedRow : String := "3 days,Wire,Cables,10,INR,Roll,100,5,kw,img,sd,dd,ft,pk"

/-- A header that omits the `leadtime` column. -/
def csvMissingHeader : String :=
  "title,category,price,currency,unit,stock,minorderqty,keywords,imageurls,shortdescription,description,features,packaging"

/-- A CSV file whose header omits `leadtime`. -/
def csvMissingLeadtimeText : String := csvMissingHeader ++ "\n" ++ csvCompactRow

/-- C7: a CSV import whose normalized header misses required columns fails
as a whole with one error event naming exactly the missing required
columns (in documented order) and enqueues nothing; with all 14 columns
present every data row is enqueued, with each cell looked up by normalized
column name (so the permuted file yields the same draft as the documented
order), a row with fewer cells than headers yields `""` for the missing
trailing columns, and blank lines (after trim) are dropped before parsing. -/
theorem csv_header_schema_enforced (settings : Page.AgentSettings) (s : AgentState)
    (text headerLine : String) (rows : List String)
    (hlines : csvLines text = headerLine :: rows) :
    (missingColumnsOf (headersOfLine headerLine) ≠ [] →
      parseCsvFile settings s text
        = appendLog s .error "CSV headers mismatch"
            (some ("Missing columns: "
              ++ String.intercalate ", " (missingColumnsOf (headersOfLine headerLine)))) ∧
      (parseCsvFile settings s text).queue = s.queue) ∧
    (∀ key, key ∈ missingColumnsOf (headersOfLine headerLine) ↔
      key ∈ requiredColumns ∧ (headersOfLine headerLine).contains key = false) ∧
    (missingColumnsOf (headersOfLine headerLine) = [] →
      (parseCsvFile settings s text).queue.map (fun it => it.payload)
        = s.queue.map (fun it => it.payload)
          ++ rows.map (rowToDraft (headersOfLine headerLine))) ∧
    (∀ (headers2 cells : List String) (column : String) (index : Nat),
      headers2.findIdx? (· == column) = some index → cells.length ≤ index →
      getValue headers2 cells column = "") ∧
    csvLines csvBlankLinesText = csvLines csvCompactText ∧
    rowToDraft (headersOfLine csvPermutedHeader) csvPermutedRow
      = rowToDraft (headersOfLine csvHeaderLine) csvCompactRow := by
  refine ⟨fun hmiss => ?_, fun key => ?_, fun hcomplete => ?_,
    fun headers2 cells column index hfind hlen => ?_, by decide, by decide⟩
  · rw [parseCsvFile, hlines]
    have he := parseCsvLines_schema_error settings s headerLine rows hmiss
    exact ⟨he, by rw [he, appendLog_queue]⟩
  · simp [missingColumnsOf, List.mem_filter]
  · rw [parseCsvFile, hlines]
    exact parseCsvLines_complete_queue settings s headerLine rows hcomplete
  · rw [getValue, hfind]
    exact List.getD_eq_default _ _ hlen

/-- Witness for C7: the file missing `leadtime` fails naming exactly
`leadtime` with nothing enqueued; the schema-valid file enqueues its row;
a short row reads `""` for a trailing column. -/
theorem csv_header_schema_enforced_witness :
    (csvLines csvMissingLeadtimeText = [csvMissingHeader, csvCompactRow] ∧
      missingColumnsOf (headersOfLine csvMissingHeader) = ["leadtime"]) ∧
    parseCsvFile Page.defaultSettings initialState csvMissingLeadtimeText
      = appendLog initialState .error "CSV headers mismatch"
          (some "Missing columns: leadtime") ∧
    (parseCsvFile Page.defaultSettings initialState csvMissingLeadtimeText).queue = [] ∧
    ("leadtime" ∈ missingColumnsOf (headersOfLine csvMissingHeader) ∧
      "title" ∉ missingColumnsOf (headersOfLine csvMissingHeader)) ∧
    (parseCsvFile Page.defaultSettings initialState csvCompactText).queue.map
        (fun it => it.payload)
      = [rowToDraft (headersOfLine csvHeaderLine) csvCompactRow] ∧
    getValue ["title", "category"] ["Wire"] "category" = "" := by
  have h := csv_header_schema_enforced Page.defaultSettings initialState
    csvMissingLeadtimeText csvMissingHeader [csvCompactRow] (by decide)
  have hc := csv_header_schema_enforced Page.defaultSettings initialState
    csvCompactText csvHeaderLine [csvCompactRow] (by decide)
  have ha := h.1 (by decide)
  refine ⟨⟨by decide, by decide⟩, ?_, ?_, ⟨by decide, by decide⟩, ?_, ?_⟩
  · rw [ha.1]; decide
  · rw [ha.2]; rfl
  · rw [hc.2.2.1 (by decide)]; decide
  · exact h.2.2.2.1 ["title", "category"] ["Wire"] "category" 1 (by decide) (by decide)
